import Mathlib

/-!
Verification of the Loongson-3 HPET timer driver and board environment
resolver against their natural-language specification.  The definitions
below are a shallow embedding of the C source: MMIO registers become
fields of explicit state records, register writes are logged as events,
and machine arithmetic is `Nat` with explicit `% 2^32`.
-/

/-- Width modulus of the 32-bit HPET registers. -/
def UINT32_MOD : Nat := 2 ^ 32

/-- All-ones 32-bit mask, used to model C bitwise complement `~x` on u32. -/
def MASK32 : Nat := 2 ^ 32 - 1

/-- Model of the C expression `~m` truncated to 32 bits. -/
def compl32 (m : Nat) : Nat := MASK32 ^^^ m

/-- General-configuration-register counter-enable bit (`HPET_CFG_ENABLE`,
from the standard HPET layout in `asm/hpet.h`, not under `src/`). -/
def HPET_CFG_ENABLE : Nat := 0x001

/-- Timer-0 interrupt-status bit of `HPET_STATUS` (`HPET_T0_IRS`). -/
def HPET_T0_IRS : Nat := 0x001

/-- Timer-n level-triggered-interrupt configuration bit (`HPET_TN_LEVEL`). -/
def HPET_TN_LEVEL : Nat := 0x0002

/-- Timer-n interrupt-enable configuration bit (`HPET_TN_ENABLE`). -/
def HPET_TN_ENABLE : Nat := 0x0004

/-- Timer-n periodic-mode configuration bit (`HPET_TN_PERIODIC`). -/
def HPET_TN_PERIODIC : Nat := 0x0008

/-- Timer-n set-value-semantics configuration bit (`HPET_TN_SETVAL`). -/
def HPET_TN_SETVAL : Nat := 0x0040

/-- Timer-n 32-bit-comparator-width configuration bit (`HPET_TN_32BIT`). -/
def HPET_TN_32BIT : Nat := 0x0100

/-- Minimum safety margin, in ticks, below which programming the next
event is reported as "too late" (`HPET_MIN_CYCLES` in the source). -/
def HPET_MIN_CYCLES : Nat := 16

/-- Linux errno `ETIME`; `hpet_next_event` returns `-ETIME` on a missed
deadline. -/
def ETIME : Int := 62

/-- Modelled from the spec: the HPET physical base address constant
`HPET_ADDR` comes from `asm/hpet.h`, which is not under `src/`; the
claims depend only on it being the fixed value programmed into the
bridge relocation register, not on the value itself. -/
def HPET_ADDR : Nat := 0x20000300

/-- The HPET MMIO registers touched by the driver, one constructor per
register offset named in the source (`HPET_CFG`, `HPET_COUNTER`,
`HPET_COUNTER + 4`, `HPET_T0_CFG`, `HPET_T0_CMP`, `HPET_STATUS`). -/
inductive Reg
  | cfg
  | counter
  | counterHi
  | t0Cfg
  | t0Cmp
  | status
deriving DecidableEq, Repr

/-- The SMBus bridge configuration registers touched by `hpet_setup`
(`SMBUS_PCI_REG40`, `SMBUS_PCI_REG64`, `SMBUS_PCI_REGB4`). -/
inductive SReg
  | reg40
  | reg64
  | regB4
deriving DecidableEq, Repr

/-- Observable events of the driver: HPET MMIO writes, SMBus
configuration writes, busy-wait delays, and the dispatch of the
per-processor clock-event callback. -/
inductive Ev
  | hpetWr (r : Reg) (v : Nat)
  | smbusWr (r : SReg) (v : Nat)
  | udelay (us : Nat)
  | callEventHandler
deriving DecidableEq, Repr

/-- State of the HPET register file. -/
structure HpetRegs where
  cfg : Nat
  counter : Nat
  counterHi : Nat
  t0Cfg : Nat
  t0Cmp : Nat
  status : Nat
deriving DecidableEq, Repr

/-- State of the three SMBus bridge configuration registers. -/
structure SmbusRegs where
  reg40 : Nat
  reg64 : Nat
  regB4 : Nat
deriving DecidableEq, Repr

/-- `hpet_read`: read an HPET register (configuration registers return
their stored value; free-running-counter reads are supplied separately
as explicit inputs where the source re-reads a moving counter). -/
def hpet_read (s : HpetRegs) (r : Reg) : Nat :=
  match r with
  | .cfg => s.cfg
  | .counter => s.counter
  | .counterHi => s.counterHi
  | .t0Cfg => s.t0Cfg
  | .t0Cmp => s.t0Cmp
  | .status => s.status

/-- `hpet_write`: store to an HPET register and log the write. -/
def hpet_write (s : HpetRegs) (r : Reg) (v : Nat) : HpetRegs × List Ev :=
  (match r with
   | .cfg => { s with cfg := v }
   | .counter => { s with counter := v }
   | .counterHi => { s with counterHi := v }
   | .t0Cfg => { s with t0Cfg := v }
   | .t0Cmp => { s with t0Cmp := v }
   | .status => { s with status := v },
   [Ev.hpetWr r v])

/-- `smbus_read`. -/
def smbus_read (s : SmbusRegs) (r : SReg) : Nat :=
  match r with
  | .reg40 => s.reg40
  | .reg64 => s.reg64
  | .regB4 => s.regB4

/-- `smbus_write`: store to an SMBus config register and log the write. -/
def smbus_write (s : SmbusRegs) (r : SReg) (v : Nat) : SmbusRegs × List Ev :=
  (match r with
   | .reg40 => { s with reg40 := v }
   | .reg64 => { s with reg64 := v }
   | .regB4 => { s with regB4 := v },
   [Ev.smbusWr r v])

/-- `smbus_enable`: read a config register, OR in a bit, write it back. -/
def smbus_enable (s : SmbusRegs) (r : SReg) (bit : Nat) : SmbusRegs × List Ev :=
  let cfg := smbus_read s r
  smbus_write s r (cfg ||| bit)

/-- `hpet_start_counter`: set the counter-enable bit of `HPET_CFG`. -/
def hpet_start_counter (s : HpetRegs) : HpetRegs × List Ev :=
  let cfg := hpet_read s .cfg
  hpet_write s .cfg (cfg ||| HPET_CFG_ENABLE)

/-- `hpet_stop_counter`: clear the counter-enable bit of `HPET_CFG`. -/
def hpet_stop_counter (s : HpetRegs) : HpetRegs × List Ev :=
  let cfg := hpet_read s .cfg
  hpet_write s .cfg (cfg &&& compl32 HPET_CFG_ENABLE)

/-- `hpet_reset_counter`: write zero to both halves of the counter. -/
def hpet_reset_counter (s : HpetRegs) : HpetRegs × List Ev :=
  let (s1, t1) := hpet_write s .counter 0
  let (s2, t2) := hpet_write s1 .counterHi 0
  (s2, t1 ++ t2)

/-- `hpet_restart_counter`: stop, zero, then start the counter. -/
def hpet_restart_counter (s : HpetRegs) : HpetRegs × List Ev :=
  let (s1, t1) := hpet_stop_counter s
  let (s2, t2) := hpet_reset_counter s1
  let (s3, t3) := hpet_start_counter s2
  (s3, t1 ++ t2 ++ t3)

/-- Interpretation of a u32 bit pattern as the C signed `s32` value. -/
def s32_of (x : Nat) : Int :=
  if x % UINT32_MOD < 2 ^ 31 then (x % UINT32_MOD : Int)
  else (x % UINT32_MOD : Int) - (UINT32_MOD : Int)

/-- Signed 32-bit difference `(s32)(a - b)` between two u32 values, as
computed by the C source with wraparound subtraction. -/
def signed_diff32 (a b : Nat) : Int :=
  s32_of (a + (UINT32_MOD - b % UINT32_MOD))

/-- `hpet_next_event`: read the counter (value `cnt0`), add the 32-bit
truncation of `delta`, write the sum into the timer-0 comparator, then
re-read the counter (value `cnt1`) and fail with `-ETIME` when the
signed remaining margin is below `HPET_MIN_CYCLES`.  The two counter
reads are explicit inputs because the counter is free-running. -/
def hpet_next_event (delta cnt0 cnt1 : Nat) (s : HpetRegs) :
    HpetRegs × List Ev × Int :=
  let cnt := (cnt0 % UINT32_MOD + delta % UINT32_MOD) % UINT32_MOD
  let (s1, t1) := hpet_write s .t0Cmp cnt
  let res := signed_diff32 cnt cnt1
  (s1, t1, if res < (HPET_MIN_CYCLES : Int) then -ETIME else 0)

/-- Claim C1: for every counter value and requested delta,
`hpet_next_event` writes counter+delta (mod 2^32) into the timer-0
comparator, returns `-ETIME` exactly when the signed difference between
the written comparator value and the re-read counter is below 16 ticks,
and returns success (0) otherwise, the comparator holding the written
value either way. -/
theorem hpet_next_event_margin (delta cnt0 cnt1 : Nat) (s : HpetRegs) :
    (hpet_next_event delta cnt0 cnt1 s).1.t0Cmp = (cnt0 + delta) % UINT32_MOD
    ∧ ((hpet_next_event delta cnt0 cnt1 s).2.2 = -ETIME ↔
        signed_diff32 ((cnt0 + delta) % UINT32_MOD) cnt1 <
          (HPET_MIN_CYCLES : Int))
    ∧ ((hpet_next_event delta cnt0 cnt1 s).2.2 = 0 ↔
        ¬ signed_diff32 ((cnt0 + delta) % UINT32_MOD) cnt1 <
          (HPET_MIN_CYCLES : Int)) := by
  have hmod : (cnt0 % UINT32_MOD + delta % UINT32_MOD) % UINT32_MOD
      = (cnt0 + delta) % UINT32_MOD := by
    conv_lhs => rw [← Nat.add_mod]
  refine ⟨?_, ?_, ?_⟩
  · simp [hpet_next_event, hpet_write, hmod]
  · simp only [hpet_next_event, hpet_write, hmod]
    by_cases hlt :
        signed_diff32 ((cnt0 + delta) % UINT32_MOD) cnt1 <
          (HPET_MIN_CYCLES : Int)
    · simp [hlt]
    · simp [hlt, ETIME]
  · simp only [hpet_next_event, hpet_write, hmod]
    by_cases hlt :
        signed_diff32 ((cnt0 + delta) % UINT32_MOD) cnt1 <
          (HPET_MIN_CYCLES : Int)
    · simp [hlt, ETIME]
    · simp [hlt]

/-- Claim C10: the requested delta, though passed as a wider unsigned
integer, is truncated to 32 bits before the addition, so the comparator
value written always equals (counter + delta) mod 2^32. -/
theorem hpet_next_event_truncates (delta cnt0 cnt1 : Nat) (s : HpetRegs) :
    (hpet_next_event delta cnt0 cnt1 s).1.t0Cmp
      = (cnt0 + delta) % UINT32_MOD := by
  have hmod : (cnt0 % UINT32_MOD + delta % UINT32_MOD) % UINT32_MOD
      = (cnt0 + delta) % UINT32_MOD := by
    conv_lhs => rw [← Nat.add_mod]
  simp [hpet_next_event, hpet_write, hmod]

/-- `hpet_set_state_periodic`: under the global lock, stop and zero the
counter, clear the comparator, rebuild the timer-0 control register
(level bit cleared, then enable/periodic/set-value/32-bit and the
board's IRQ-trigger flags ORed in), program the comparator twice with a
1us settle delay between the writes, and restart the counter.  The
board-resolved globals `hpet_irq_flags` and the precomputed periodic
compare value `HPET_COMPARE_VAL` are passed as arguments. -/
def hpet_set_state_periodic (irqFlags compareVal : Nat) (s : HpetRegs) :
    HpetRegs × List Ev :=
  let (s1, t1) := hpet_stop_counter s
  let (s2, t2) := hpet_reset_counter s1
  let (s3, t3) := hpet_write s2 .t0Cmp 0
  let cfg := hpet_read s3 .t0Cfg
  let cfg := cfg &&& compl32 HPET_TN_LEVEL
  let cfg := cfg ||| (HPET_TN_ENABLE ||| HPET_TN_PERIODIC |||
    HPET_TN_SETVAL ||| HPET_TN_32BIT ||| irqFlags)
  let (s4, t4) := hpet_write s3 .t0Cfg cfg
  let (s5, t5) := hpet_write s4 .t0Cmp compareVal
  let t6 := [Ev.udelay 1]
  let (s6, t7) := hpet_write s5 .t0Cmp compareVal
  let (s7, t8) := hpet_start_counter s6
  (s7, t1 ++ t2 ++ t3 ++ t4 ++ t5 ++ t6 ++ t7 ++ t8)

/-- `hpet_set_state_shutdown`: clear the timer-0 enable bit. -/
def hpet_set_state_shutdown (s : HpetRegs) : HpetRegs × List Ev :=
  let cfg := hpet_read s .t0Cfg
  hpet_write s .t0Cfg (cfg &&& compl32 HPET_TN_ENABLE)

/-- `hpet_set_state_oneshot`: clear the periodic bit and set the
enable and 32-bit-width bits of the timer-0 control register. -/
def hpet_set_state_oneshot (s : HpetRegs) : HpetRegs × List Ev :=
  let cfg := hpet_read s .t0Cfg
  let cfg := cfg &&& compl32 HPET_TN_PERIODIC
  let cfg := cfg ||| (HPET_TN_ENABLE ||| HPET_TN_32BIT)
  hpet_write s .t0Cfg cfg

/-- Return values of a Linux interrupt handler: `handled` embeds
`IRQ_HANDLED` and `nobody` embeds `IRQ_NONE` ("not my interrupt"). -/
inductive IrqReturn
  | handled
  | nobody
deriving DecidableEq, Repr

/-- `hpet_irq_handler`: read the status register; if the timer-0 status
bit is clear return `IRQ_NONE` with no side effects, otherwise write
the bit back (write-one-to-clear acknowledgment) and then invoke the
per-processor clock-event callback, returning `IRQ_HANDLED`. -/
def hpet_irq_handler (s : HpetRegs) : HpetRegs × List Ev × IrqReturn :=
  let is_irq := hpet_read s .status
  if is_irq &&& HPET_T0_IRS ≠ 0 then
    let (s1, t1) := hpet_write s .status HPET_T0_IRS
    (s1, t1 ++ [Ev.callEventHandler], IrqReturn.handled)
  else
    (s, [], IrqReturn.nobody)

/-- The platform-controller-hub variants known to the platform code
(`LS2H`, `LS7A`, `RS780E`) plus the baseline `dummy_pch` used by the
legacy firmware path. -/
inductive PchType
  | ls2h
  | ls7a
  | rs780e
  | dummy
deriving DecidableEq, Repr

/-- `hpet_setup`: on the RS780E hub only, program the HPET base address
into the bridge relocation register and set the two enable bits that
expose the HPET MMIO window and route its interrupt; the trailing
`hpet_enable_legacy_int` call is a no-op on Loongson-3. -/
def hpet_setup (pch : PchType) (sm : SmbusRegs) : SmbusRegs × List Ev :=
  if pch = PchType.rs780e then
    let (s1, t1) := smbus_write sm .regB4 HPET_ADDR
    let (s2, t2) := smbus_enable s1 .reg40 (1 <<< 28)
    let (s3, t3) := smbus_enable s2 .reg64 (1 <<< 10)
    (s3, t1 ++ t2 ++ t3)
  else
    (sm, [])

/-- `hpet_suspend`: the clocksource suspend callback has an empty body. -/
def hpet_suspend (h : HpetRegs) : HpetRegs × List Ev := (h, [])

/-- `hpet_resume`: re-run the one-time bridge fixups (`hpet_setup`) and
then stop/zero/restart the free-running counter. -/
def hpet_resume (pch : PchType) (sm : SmbusRegs) (h : HpetRegs) :
    (SmbusRegs × HpetRegs) × List Ev :=
  let (sm1, t1) := hpet_setup pch sm
  let (h1, t2) := hpet_restart_counter h
  ((sm1, h1), t1 ++ t2)

/-- Claim C2: for every prior register state, entering Periodic mode
leaves the timer-0 control register with the enable (bit 2), periodic
(bit 3), set-value (bit 6) and 32-bit-width (bit 8) bits set, its value
being the old one with the level bit first cleared and then the mode
bits and the board's IRQ-trigger flags ORed in; the comparator is
programmed twice with a settle delay between the two writes; and the
free-running counter is left enabled and restarted from zero. -/
theorem hpet_set_state_periodic_ok (irqFlags compareVal : Nat)
    (s : HpetRegs) :
    ((hpet_set_state_periodic irqFlags compareVal s).1.t0Cfg.testBit 2 = true)
    ∧ ((hpet_set_state_periodic irqFlags compareVal s).1.t0Cfg.testBit 3 = true)
    ∧ ((hpet_set_state_periodic irqFlags compareVal s).1.t0Cfg.testBit 6 = true)
    ∧ ((hpet_set_state_periodic irqFlags compareVal s).1.t0Cfg.testBit 8 = true)
    ∧ ((hpet_set_state_periodic irqFlags compareVal s).1.t0Cfg =
        ((s.t0Cfg &&& compl32 HPET_TN_LEVEL) |||
          (HPET_TN_ENABLE ||| HPET_TN_PERIODIC ||| HPET_TN_SETVAL |||
            HPET_TN_32BIT ||| irqFlags)))
    ∧ ((hpet_set_state_periodic irqFlags compareVal s).1.counter = 0)
    ∧ ((hpet_set_state_periodic irqFlags compareVal s).1.counterHi = 0)
    ∧ ((hpet_set_state_periodic irqFlags compareVal s).1.cfg.testBit 0 = true)
    ∧ ((hpet_set_state_periodic irqFlags compareVal s).2 =
        [Ev.hpetWr .cfg (s.cfg &&& compl32 HPET_CFG_ENABLE),
         Ev.hpetWr .counter 0,
         Ev.hpetWr .counterHi 0,
         Ev.hpetWr .t0Cmp 0,
         Ev.hpetWr .t0Cfg ((s.t0Cfg &&& compl32 HPET_TN_LEVEL) |||
           (HPET_TN_ENABLE ||| HPET_TN_PERIODIC ||| HPET_TN_SETVAL |||
             HPET_TN_32BIT ||| irqFlags)),
         Ev.hpetWr .t0Cmp compareVal,
         Ev.udelay 1,
         Ev.hpetWr .t0Cmp compareVal,
         Ev.hpetWr .cfg ((s.cfg &&& compl32 HPET_CFG_ENABLE) |||
           HPET_CFG_ENABLE)]) := by
  refine ⟨?_, ?_, ?_, ?_, rfl, rfl, rfl, ?_, rfl⟩
  · simp [hpet_set_state_periodic, hpet_write, hpet_read,
      hpet_stop_counter, hpet_reset_counter, hpet_start_counter,
      Nat.testBit_lor,
      show Nat.testBit HPET_TN_ENABLE 2 = true by decide]
  · simp [hpet_set_state_periodic, hpet_write, hpet_read,
      hpet_stop_counter, hpet_reset_counter, hpet_start_counter,
      Nat.testBit_lor,
      show Nat.testBit HPET_TN_PERIODIC 3 = true by decide]
  · simp [hpet_set_state_periodic, hpet_write, hpet_read,
      hpet_stop_counter, hpet_reset_counter, hpet_start_counter,
      Nat.testBit_lor,
      show Nat.testBit HPET_TN_SETVAL 6 = true by decide]
  · simp [hpet_set_state_periodic, hpet_write, hpet_read,
      hpet_stop_counter, hpet_reset_counter, hpet_start_counter,
      Nat.testBit_lor,
      show Nat.testBit HPET_TN_32BIT 8 = true by decide]
  · simp [hpet_set_state_periodic, hpet_write, hpet_read,
      hpet_stop_counter, hpet_reset_counter, hpet_start_counter,
      Nat.testBit_lor,
      show Nat.testBit HPET_CFG_ENABLE 0 = true by decide]
    exact Or.inr (by decide)

/-- Claim C3: for every hardware status value, the interrupt handler
returns "not mine" with no register writes when the timer-0 status bit
is clear; when the bit is set it performs exactly one write-one-to-clear
acknowledgment of that bit before invoking the per-processor
event-handler callback, and reports the interrupt as handled. -/
theorem hpet_irq_handler_ok (s : HpetRegs) :
    (s.status &&& HPET_T0_IRS = 0 →
      hpet_irq_handler s = (s, [], IrqReturn.nobody))
    ∧ (s.status &&& HPET_T0_IRS ≠ 0 →
      (hpet_irq_handler s).2.1 =
          [Ev.hpetWr .status HPET_T0_IRS, Ev.callEventHandler]
        ∧ (hpet_irq_handler s).2.2 = IrqReturn.handled) := by
  constructor
  · intro h
    simp [hpet_irq_handler, hpet_read, h]
  · intro h
    simp [hpet_irq_handler, hpet_read, hpet_write, h]

/-- Witness for claim C3: with status 0 the handler is a pure "not
mine"; with the timer-0 bit set it acknowledges once then dispatches. -/
theorem hpet_irq_handler_ok_witness :
    ((⟨5, 6, 7, 8, 9, 0⟩ : HpetRegs).status &&& HPET_T0_IRS = 0
      ∧ hpet_irq_handler ⟨5, 6, 7, 8, 9, 0⟩ =
          (⟨5, 6, 7, 8, 9, 0⟩, [], IrqReturn.nobody))
    ∧ ((⟨5, 6, 7, 8, 9, 1⟩ : HpetRegs).status &&& HPET_T0_IRS ≠ 0
      ∧ (hpet_irq_handler ⟨5, 6, 7, 8, 9, 1⟩).2.1 =
          [Ev.hpetWr .status HPET_T0_IRS, Ev.callEventHandler]) :=
  ⟨⟨by decide, (hpet_irq_handler_ok ⟨5, 6, 7, 8, 9, 0⟩).1 (by decide)⟩,
   ⟨by decide, ((hpet_irq_handler_ok ⟨5, 6, 7, 8, 9, 1⟩).2 (by decide)).1⟩⟩

/-- Claim C9: the Shutdown transition is idempotent on the register
state, the bit it clears (the timer-0 enable bit, bit 2) is clear
afterwards, every other bit of the timer-0 control register is
unchanged, and no other register changes. -/
theorem hpet_set_state_shutdown_ok (s : HpetRegs)
    (h : s.t0Cfg < UINT32_MOD) :
    ((hpet_set_state_shutdown (hpet_set_state_shutdown s).1).1 =
        (hpet_set_state_shutdown s).1)
    ∧ ((hpet_set_state_shutdown s).1.t0Cfg.testBit 2 = false)
    ∧ (∀ i, i ≠ 2 →
        (hpet_set_state_shutdown s).1.t0Cfg.testBit i = s.t0Cfg.testBit i)
    ∧ ((hpet_set_state_shutdown s).1.cfg = s.cfg)
    ∧ ((hpet_set_state_shutdown s).1.counter = s.counter)
    ∧ ((hpet_set_state_shutdown s).1.counterHi = s.counterHi)
    ∧ ((hpet_set_state_shutdown s).1.t0Cmp = s.t0Cmp)
    ∧ ((hpet_set_state_shutdown s).1.status = s.status) := by
  have hc : ∀ i, (compl32 HPET_TN_ENABLE).testBit i
      = (decide (i < 32) && !(Nat.testBit HPET_TN_ENABLE i)) := by
    intro i
    simp only [compl32, MASK32, Nat.testBit_xor, Nat.testBit_two_pow_sub_one]
    by_cases hi : i < 32
    · by_cases h2 : Nat.testBit HPET_TN_ENABLE i <;> simp [hi, h2]
    · have : Nat.testBit HPET_TN_ENABLE i = false := by
        apply Nat.testBit_eq_false_of_lt
        calc HPET_TN_ENABLE < 2 ^ 3 := by decide
        _ ≤ 2 ^ i := Nat.pow_le_pow_right (by decide) (by omega)
      simp [hi, this]
  refine ⟨?_, ?_, ?_, rfl, rfl, rfl, rfl, rfl⟩
  · simp only [hpet_set_state_shutdown, hpet_read, hpet_write]
    congr 1
    apply Nat.eq_of_testBit_eq
    intro i
    simp [Nat.testBit_land, Bool.and_assoc]
  · simp only [hpet_set_state_shutdown, hpet_read, hpet_write]
    simp [Nat.testBit_land, hc, show Nat.testBit HPET_TN_ENABLE 2 = true
      by decide]
  · intro i hi
    simp only [hpet_set_state_shutdown, hpet_read, hpet_write]
    simp only [Nat.testBit_land, hc]
    by_cases h32 : i < 32
    · have h2 : Nat.testBit HPET_TN_ENABLE i = false := by
        rcases Nat.lt_or_ge i 3 with hlt | hge
        · interval_cases i <;> simp_all <;> decide
        · apply Nat.testBit_eq_false_of_lt
          calc HPET_TN_ENABLE < 2 ^ 3 := by decide
          _ ≤ 2 ^ i := Nat.pow_le_pow_right (by decide) hge
      simp [h32, h2]
    · have hbit : s.t0Cfg.testBit i = false := by
        apply Nat.testBit_eq_false_of_lt
        calc s.t0Cfg < 2 ^ 32 := h
        _ ≤ 2 ^ i := Nat.pow_le_pow_right (by decide) (by omega)
      simp [h32, hbit]

/-- Witness for claim C9 at a concrete control register value 0xff:
shutdown twice equals shutdown once, and the enable bit ends clear. -/
theorem hpet_set_state_shutdown_ok_witness :
    ((⟨1, 2, 3, 0xff, 4, 5⟩ : HpetRegs).t0Cfg < UINT32_MOD)
    ∧ ((hpet_set_state_shutdown
        (hpet_set_state_shutdown ⟨1, 2, 3, 0xff, 4, 5⟩).1).1 =
          (hpet_set_state_shutdown ⟨1, 2, 3, 0xff, 4, 5⟩).1)
    ∧ ((hpet_set_state_shutdown ⟨1, 2, 3, 0xff, 4, 5⟩).1.t0Cfg.testBit 2
        = false) :=
  ⟨by decide,
   (hpet_set_state_shutdown_ok ⟨1, 2, 3, 0xff, 4, 5⟩ (by decide)).1,
   (hpet_set_state_shutdown_ok ⟨1, 2, 3, 0xff, 4, 5⟩ (by decide)).2.1⟩

/-- Claim C6: for every prior counter value, the clocksource resume
callback re-runs the one-time bridge/bus fixups (the three SMBus writes,
on the RS780E hub only) and then stops the counter, resets it to zero
and restarts it, leaving the counter zeroed and enabled; the clocksource
suspend callback performs no action at all. -/
theorem hpet_resume_ok (pch : PchType) (sm : SmbusRegs) (h : HpetRegs) :
    ((hpet_resume pch sm h).1.2.counter = 0)
    ∧ ((hpet_resume pch sm h).1.2.counterHi = 0)
    ∧ ((hpet_resume pch sm h).1.2.cfg.testBit 0 = true)
    ∧ (pch = PchType.rs780e →
        (hpet_resume pch sm h).1.1 =
          ⟨sm.reg40 ||| 1 <<< 28, sm.reg64 ||| 1 <<< 10, HPET_ADDR⟩)
    ∧ (pch ≠ PchType.rs780e → (hpet_resume pch sm h).1.1 = sm)
    ∧ ((hpet_resume pch sm h).2 =
        (if pch = PchType.rs780e then
          [Ev.smbusWr .regB4 HPET_ADDR,
           Ev.smbusWr .reg40 (sm.reg40 ||| 1 <<< 28),
           Ev.smbusWr .reg64 (sm.reg64 ||| 1 <<< 10)]
         else []) ++
        [Ev.hpetWr .cfg (h.cfg &&& compl32 HPET_CFG_ENABLE),
         Ev.hpetWr .counter 0,
         Ev.hpetWr .counterHi 0,
         Ev.hpetWr .cfg ((h.cfg &&& compl32 HPET_CFG_ENABLE) |||
           HPET_CFG_ENABLE)])
    ∧ (hpet_suspend h = (h, [])) := by
  refine ⟨rfl, rfl, ?_, ?_, ?_, ?_, rfl⟩
  · simp [hpet_resume, hpet_setup, hpet_restart_counter, hpet_stop_counter,
      hpet_reset_counter, hpet_start_counter, hpet_read, hpet_write,
      Nat.testBit_lor]
    exact Or.inr (by decide)
  · intro hp
    simp [hpet_resume, hpet_setup, hp, smbus_write, smbus_enable, smbus_read]
  · intro hp
    simp [hpet_resume, hpet_setup, hp]
  · by_cases hp : pch = PchType.rs780e
    · simp [hpet_resume, hpet_setup, hp, smbus_write, smbus_enable,
        smbus_read, hpet_restart_counter, hpet_stop_counter,
        hpet_reset_counter, hpet_start_counter, hpet_read, hpet_write]
    · simp [hpet_resume, hpet_setup, hp, hpet_restart_counter,
        hpet_stop_counter, hpet_reset_counter, hpet_start_counter,
        hpet_read, hpet_write]

/-- Witness for claim C6 on the RS780E hub with concrete registers: the
fixups are applied and the counter is zeroed and enabled. -/
theorem hpet_resume_ok_witness :
    ((hpet_resume PchType.rs780e ⟨0, 0, 0⟩ ⟨0, 7, 7, 0, 0, 0⟩).1.2.counter
        = 0)
    ∧ ((hpet_resume PchType.rs780e ⟨0, 0, 0⟩ ⟨0, 7, 7, 0, 0, 0⟩).1.1 =
        ⟨(0 : Nat) ||| 1 <<< 28, (0 : Nat) ||| 1 <<< 10, HPET_ADDR⟩) :=
  ⟨(hpet_resume_ok PchType.rs780e ⟨0, 0, 0⟩ ⟨0, 7, 7, 0, 0, 0⟩).1,
   ((hpet_resume_ok PchType.rs780e ⟨0, 0, 0⟩ ⟨0, 7, 7, 0, 0, 0⟩).2.2.2.1
     rfl)⟩

/-- `strncmp(pat, s, strlen(pat)) == 0`: does `s` begin with `pat`? -/
def listBeginsWith : List Char → List Char → Bool
  | [], _ => true
  | _ :: _, [] => false
  | a :: pre, b :: rest => a == b && listBeginsWith pre rest

/-- C `strstr(hay, pat) != NULL`: does `pat` occur inside `hay`? -/
def strstr_found : List Char → List Char → Bool
  | [], pat => pat.isEmpty
  | a :: t, pat => listBeginsWith pat (a :: t) || strstr_found t pat

/-- The spec-level occurrence predicate: `pat` appears as a contiguous
segment of `hay`. -/
def occursIn (pat hay : List Char) : Prop :=
  ∃ pre post, hay = pre ++ pat ++ post

/-- `listBeginsWith` finds exactly the lists extending the pattern. -/
theorem listBeginsWith_iff (pat s : List Char) :
    listBeginsWith pat s = true ↔ ∃ t, s = pat ++ t := by
  induction pat generalizing s with
  | nil => simp [listBeginsWith]
  | cons a pre ih =>
    cases s with
    | nil => simp [listBeginsWith]
    | cons b rest =>
      simp only [listBeginsWith, Bool.and_eq_true, beq_iff_eq, ih,
        List.cons_append, List.cons.injEq]
      constructor
      · rintro ⟨rfl, t, rfl⟩
        exact ⟨t, rfl, rfl⟩
      · rintro ⟨t, rfl, rfl⟩
        exact ⟨rfl, t, rfl⟩

/-- `strstr_found` decides exactly the occurrence predicate. -/
theorem strstr_found_iff (hay pat : List Char) :
    strstr_found hay pat = true ↔ occursIn pat hay := by
  induction hay with
  | nil =>
    simp only [strstr_found, occursIn, List.isEmpty_iff]
    constructor
    · rintro rfl
      exact ⟨[], [], rfl⟩
    · rintro ⟨pre, post, heq⟩
      rcases List.append_eq_nil.mp heq.symm with ⟨h1, -⟩
      exact (List.append_eq_nil.mp h1).2
  | cons a t ih =>
    simp only [strstr_found, Bool.or_eq_true, listBeginsWith_iff, ih,
      occursIn]
    constructor
    · rintro (⟨u, hu⟩ | ⟨pre, post, hpp⟩)
      · exact ⟨[], u, by simpa using hu⟩
      · exact ⟨a :: pre, post, by simp [hpp]⟩
    · rintro ⟨pre, post, hpp⟩
      cases pre with
      | nil =>
        exact Or.inl ⟨post, by simpa using hpp⟩
      | cons b pre' =>
        have h' : a = b ∧ t = pre' ++ (pat ++ post) := by simpa using hpp
        exact Or.inr ⟨pre', post, by simpa using h'.2⟩

instance (pat hay : List Char) : Decidable (occursIn pat hay) :=
  decidable_of_iff (strstr_found hay pat = true) (strstr_found_iff hay pat)

/-- The devicetree blobs compiled into the kernel, one per hub family. -/
inductive FdtBlob
  | ls2h
  | ls7a
  | rs780
deriving DecidableEq, Repr

/-- The board-dependent outputs of the hub-selection branch of
`prom_init_env`: chosen hub, EC SCI interrupt number, devicetree blob. -/
structure BoardSel where
  pch : PchType
  ec_sci_irq : Nat
  fdt : FdtBlob
deriving DecidableEq, Repr

/-- The hub-selection branch of `prom_init_env`: `strstr` the board
name for "2H", else for "7A", else fall back to the RS780E family. -/
def select_board (name : List Char) : BoardSel :=
  if strstr_found name ['2', 'H'] then
    ⟨PchType.ls2h, 0x80, FdtBlob.ls2h⟩
  else if strstr_found name ['7', 'A'] then
    ⟨PchType.ls7a, 0x07, FdtBlob.ls7a⟩
  else
    ⟨PchType.rs780e, 0x07, FdtBlob.rs780⟩

/-- Case-insensitive occurrence test, the reading of the claim that
hub-variant selection matches the board name case-insensitively; kept
for comparison with the case-sensitive `select_board` from the source. -/
def ci_contains (hay pat : List Char) : Bool :=
  strstr_found (hay.map Char.toLower) (pat.map Char.toLower)

/-- Counterexample to claim C4: the board name "Loongson-2h" contains
"2H" case-insensitively, so the claim selects the LS2H variant, but the
code's `strstr` is case-sensitive and falls through to the RS780E-class
default. -/
theorem select_board_case_cex :
    ci_contains
        ['L', 'o', 'o', 'n', 'g', 's', 'o', 'n', '-', '2', 'h']
        ['2', 'H'] = true
    ∧ (select_board
        ['L', 'o', 'o', 'n', 'g', 's', 'o', 'n', '-', '2', 'h']).pch
        = PchType.rs780e
    ∧ PchType.rs780e ≠ PchType.ls2h := by
  refine ⟨by decide, by decide, by decide⟩

/-- Claim C4 (amended): hub-variant selection is a case-SENSITIVE
substring match in fixed priority order: a name containing "2H" anywhere
selects the LS2H variant (EC SCI IRQ 0x80), otherwise a name containing
"7A" selects the LS7A variant (EC SCI IRQ 0x07), otherwise the
RS780E-class default is selected; the first match wins. -/
theorem select_board_ok (name : List Char) :
    (occursIn ['2', 'H'] name →
      select_board name = ⟨PchType.ls2h, 0x80, FdtBlob.ls2h⟩)
    ∧ (¬ occursIn ['2', 'H'] name → occursIn ['7', 'A'] name →
      select_board name = ⟨PchType.ls7a, 0x07, FdtBlob.ls7a⟩)
    ∧ (¬ occursIn ['2', 'H'] name → ¬ occursIn ['7', 'A'] name →
      select_board name = ⟨PchType.rs780e, 0x07, FdtBlob.rs780⟩) := by
  refine ⟨?_, ?_, ?_⟩
  · intro h
    rw [← strstr_found_iff] at h
    simp [select_board, h]
  · intro h2 h7
    rw [← strstr_found_iff] at h7
    rw [← strstr_found_iff, Bool.not_eq_true] at h2
    simp [select_board, h2, h7]
  · intro h2 h7
    rw [← strstr_found_iff, Bool.not_eq_true] at h2
    rw [← strstr_found_iff, Bool.not_eq_true] at h7
    simp [select_board, h2, h7]

/-- Witness for claim C4 (amended), on the spec's scenario board name
"Loongson-7A1000": no "2H", a "7A", so the LS7A variant with EC SCI IRQ
0x07 is selected. -/
theorem select_board_ok_witness :
    ¬ occursIn ['2', 'H']
        ['L', 'o', 'o', 'n', 'g', 's', 'o', 'n', '-',
         '7', 'A', '1', '0', '0', '0']
    ∧ occursIn ['7', 'A']
        ['L', 'o', 'o', 'n', 'g', 's', 'o', 'n', '-',
         '7', 'A', '1', '0', '0', '0']
    ∧ select_board
        ['L', 'o', 'o', 'n', 'g', 's', 'o', 'n', '-',
         '7', 'A', '1', '0', '0', '0']
        = ⟨PchType.ls7a, 0x07, FdtBlob.ls7a⟩ :=
  ⟨by decide, by decide,
   ((select_board_ok
       ['L', 'o', 'o', 'n', 'g', 's', 'o', 'n', '-',
        '7', 'A', '1', '0', '0', '0']).2.1 (by decide) (by decide))⟩

/-- Modelled from the spec: the compile-time UART table capacity
`MAX_UARTS` from `boot_param.h` (not under `src/`); the claims depend
only on it being a fixed positive maximum. -/
def MAX_UARTS : Nat := 64

/-- Modelled from the spec: the compile-time sensor table capacity
`MAX_SENSORS` from `boot_param.h` (not under `src/`). -/
def MAX_SENSORS : Nat := 64

/-- The UART branch of `prom_init_env`: take the firmware-reported
count, replace an out-of-range count by 1, then copy that many
descriptors from the firmware table. -/
def env_init_uarts (nr : Nat) (uarts : List Nat) : Nat × List Nat :=
  let n := if nr < 1 ∨ nr > MAX_UARTS then 1 else nr
  (n, uarts.take n)

/-- The sensor branch of `prom_init_env`: take the firmware-reported
count, replace an over-maximum count by 0, and copy descriptors only
when the resulting count is nonzero. -/
def env_init_sensors (nr : Nat) (sensors : List Nat) : Nat × List Nat :=
  let n := if nr > MAX_SENSORS then 0 else nr
  (n, if n ≠ 0 then sensors.take n else [])

/-- Counterexample to claim C5: a firmware sensor count one above the
maximum is zeroed by the code, not clamped to the maximum. -/
theorem env_init_sensors_cex :
    (env_init_sensors (MAX_SENSORS + 1) [3, 1, 4]).1 = 0
    ∧ (env_init_sensors (MAX_SENSORS + 1) [3, 1, 4]).1 ≠ MAX_SENSORS := by
  refine ⟨by decide, by decide⟩

/-- Claim C5 (amended): a firmware count exceeding its compile-time
maximum is handled before the fixed-size descriptor arrays are copied,
without being treated as an error: an out-of-range UART count (0 or
above the maximum) becomes the default of 1, while an over-maximum
sensor count is reset to 0 and no sensor descriptors are copied;
in-range counts are kept and that many descriptors are copied. -/
theorem env_init_clamp_ok (nu : Nat) (us : List Nat) (ns : Nat)
    (ss : List Nat) :
    ((nu < 1 ∨ nu > MAX_UARTS) → env_init_uarts nu us = (1, us.take 1))
    ∧ (1 ≤ nu → nu ≤ MAX_UARTS → env_init_uarts nu us = (nu, us.take nu))
    ∧ (ns > MAX_SENSORS → env_init_sensors ns ss = (0, []))
    ∧ (ns ≤ MAX_SENSORS → (env_init_sensors ns ss).1 = ns) := by
  refine ⟨?_, ?_, ?_, ?_⟩
  · intro h
    simp only [env_init_uarts]
    rw [if_pos h]
  · intro h1 h2
    have hc : ¬ (nu < 1 ∨ nu > MAX_UARTS) := by omega
    simp only [env_init_uarts]
    rw [if_neg hc]
  · intro h
    simp only [env_init_sensors]
    rw [if_pos h]
    simp
  · intro h
    have hc : ¬ ns > MAX_SENSORS := by omega
    simp only [env_init_sensors]
    rw [if_neg hc]

/-- Witness for claim C5 (amended): a UART count of 100 collapses to
the default single UART; a sensor count of 65 collapses to zero. -/
theorem env_init_clamp_ok_witness :
    ((100 < 1 ∨ 100 > MAX_UARTS)
      ∧ env_init_uarts 100 [11, 12] = (1, [11]))
    ∧ (65 > MAX_SENSORS ∧ env_init_sensors 65 [3, 1, 4] = (0, [])) :=
  ⟨⟨by decide, (env_init_clamp_ok 100 [11, 12] 65 [3, 1, 4]).1
      (by decide)⟩,
   ⟨by decide, (env_init_clamp_ok 100 [11, 12] 65 [3, 1, 4]).2.2.1
      (by decide)⟩⟩

/-- The CPU-type enumerants distinguished by the `switch` in
`prom_init_env` (from the firmware interface header `boot_param.h`, not
under `src/`); every enumerant outside the two multi-core families
takes the `default` branch and is collapsed into `other`. -/
inductive CpuType
  | legacy_3a
  | loongson_3a
  | legacy_3b
  | loongson_3b
  | other
deriving DecidableEq, Repr

/-- `loongson_sysconf.cores_per_node` as set by the `switch`. -/
def cores_per_node : CpuType → Nat
  | .legacy_3a => 4
  | .loongson_3a => 4
  | .legacy_3b => 4
  | .loongson_3b => 4
  | .other => 1

/-- `loongson_sysconf.cores_per_package` as set by the `switch`. -/
def cores_per_package : CpuType → Nat
  | .legacy_3a => 4
  | .loongson_3a => 4
  | .legacy_3b => 8
  | .loongson_3b => 8
  | .other => 1

/-- Modelled from the spec: the build's static CPU maximum `NR_CPUS`
(a kernel build configuration value, not under `src/`); the claims
depend only on it being a fixed positive bound. -/
def NR_CPUS : Nat := 16

/-- The CPU-count clamp of `prom_init_env`: a zero or over-maximum
firmware count is replaced by the build maximum. -/
def clamp_nr_cpus (n : Nat) : Nat :=
  if n > NR_CPUS ∨ n = 0 then NR_CPUS else n

/-- The node-count computation of `prom_init_env`:
`(nr_cpus + cores_per_node - 1) / cores_per_node`. -/
def compute_nr_nodes (ncpus cpn : Nat) : Nat :=
  (ncpus + cpn - 1) / cpn

/-- Claim C7: a firmware CPU count of zero or above the build maximum is
replaced by the build maximum (and an in-range count kept), and the node
count is then the ceiling of the resulting CPU count divided by
`cores_per_node`: it is the least `k` with `nr_cpus ≤ k * cores_per_node`,
for every CPU-type enumerant. -/
theorem nr_nodes_ceiling_ok (ct : CpuType) (n : Nat) :
    (n = 0 ∨ NR_CPUS < n → clamp_nr_cpus n = NR_CPUS)
    ∧ (n ≠ 0 → n ≤ NR_CPUS → clamp_nr_cpus n = n)
    ∧ (clamp_nr_cpus n ≤
        compute_nr_nodes (clamp_nr_cpus n) (cores_per_node ct) *
          cores_per_node ct)
    ∧ (∀ k, clamp_nr_cpus n ≤ k * cores_per_node ct →
        compute_nr_nodes (clamp_nr_cpus n) (cores_per_node ct) ≤ k) := by
  refine ⟨?_, ?_, ?_, ?_⟩
  · intro h
    have : n > NR_CPUS ∨ n = 0 := by omega
    simp [clamp_nr_cpus, this]
  · intro h1 h2
    have : ¬ (n > NR_CPUS ∨ n = 0) := by omega
    simp [clamp_nr_cpus, this]
  · cases ct <;> simp only [cores_per_node, compute_nr_nodes] <;> omega
  · intro k
    cases ct <;> simp only [cores_per_node, compute_nr_nodes] <;> omega

/-- Witness for claim C7, at the spec's scenario (3A family, 4 CPUs):
the in-range count 4 is kept, and with 4 cores per node a single node
suffices. -/
theorem nr_nodes_ceiling_ok_witness :
    ((4 : Nat) ≠ 0 ∧ (4 : Nat) ≤ NR_CPUS ∧ clamp_nr_cpus 4 = 4)
    ∧ (clamp_nr_cpus 4 ≤ 1 * cores_per_node CpuType.loongson_3a
        ∧ compute_nr_nodes (clamp_nr_cpus 4)
            (cores_per_node CpuType.loongson_3a) ≤ 1) :=
  ⟨⟨by decide, by decide,
    (nr_nodes_ceiling_ok CpuType.loongson_3a 4).2.1 (by decide) (by decide)⟩,
   ⟨by decide,
    (nr_nodes_ceiling_ok CpuType.loongson_3a 4).2.2.2 1 (by decide)⟩⟩

/-- The key strings recognized by the legacy argument parser. -/
def cpuclock_key : List Char := ['c', 'p', 'u', 'c', 'l', 'o', 'c', 'k']

/-- The "memsize" key of the legacy argument parser. -/
def memsize_key : List Char := ['m', 'e', 'm', 's', 'i', 'z', 'e']

/-- The "highmemsize" key of the legacy argument parser. -/
def highmemsize_key : List Char :=
  ['h', 'i', 'g', 'h', 'm', 'e', 'm', 's', 'i', 'z', 'e']

/-- `kstrtou32(s, 10, &res)` (from `lib/kstrtox.c`, a kernel library
routine outside this repository's scope): skip one leading '+', consume
decimal digits, allow one trailing newline, and succeed when at least
one digit was consumed, nothing else remains and the value fits in
32 bits. -/
def kstrtou32 (s : List Char) : Option Nat :=
  let s1 := match s with
    | '+' :: r => r
    | _ => s
  let ds := s1.takeWhile (fun c => c.isDigit)
  let rest := s1.dropWhile (fun c => c.isDigit)
  if ds.isEmpty then none
  else
    let v := ds.foldl (fun a c => a * 10 + (c.toNat - 48)) 0
    let rest2 := match rest with
      | '\n' :: r => r
      | _ => rest
    if rest2.isEmpty ∧ v < UINT32_MOD then some v else none

/-- The `parse_even_earlier` macro body: if the entry begins with the
key, parse the decimal suffix after "key=" and overwrite `res` on
success; otherwise keep `res` (`kstrtou32` leaves its result untouched
on failure). -/
def parse_even_earlier (res : Nat) (key p : List Char) : Nat :=
  if listBeginsWith key p then
    match kstrtou32 (p.drop (key.length + 1)) with
    | some v => v
    | none => res
  else res

/-- The three global values accumulated by the legacy argument loop. -/
structure EarlyEnv where
  cpu_clock_freq : Nat
  memsize : Nat
  highmemsize : Nat
deriving DecidableEq, Repr

/-- One iteration of the legacy argument loop: try all three keys on
the current entry. -/
def legacy_step (st : EarlyEnv) (p : List Char) : EarlyEnv :=
  { cpu_clock_freq := parse_even_earlier st.cpu_clock_freq cpuclock_key p
    memsize := parse_even_earlier st.memsize memsize_key p
    highmemsize := parse_even_earlier st.highmemsize highmemsize_key p }

/-- Modelled from the spec: the MIPS PRID revision-field mask (from
`asm/cpu.h`, not under `src/`). -/
def PRID_REV_MASK : Nat := 0xff

/-- Modelled from the spec: known silicon revision enumerants used by
the frequency fallback (from `asm/cpu.h`, not under `src/`). -/
def PRID_REV_LOONGSON2E : Nat := 0x02

/-- Loongson-2F revision enumerant. -/
def PRID_REV_LOONGSON2F : Nat := 0x03

/-- Loongson-3A R1 revision enumerant. -/
def PRID_REV_LOONGSON3A_R1 : Nat := 0x05

/-- Loongson-3B R1 revision enumerant. -/
def PRID_REV_LOONGSON3B_R1 : Nat := 0x06

/-- Loongson-3B R2 revision enumerant. -/
def PRID_REV_LOONGSON3B_R2 : Nat := 0x07

/-- Loongson-3A R2.0 revision enumerant. -/
def PRID_REV_LOONGSON3A_R2_0 : Nat := 0x08

/-- Loongson-3A R3.0 revision enumerant. -/
def PRID_REV_LOONGSON3A_R3_0 : Nat := 0x09

/-- Loongson-3A R2.1 revision enumerant. -/
def PRID_REV_LOONGSON3A_R2_1 : Nat := 0x0c

/-- Loongson-3A R3.1 revision enumerant. -/
def PRID_REV_LOONGSON3A_R3_1 : Nat := 0x0d

/-- The zero-frequency fallback of `prom_init_env`: derive a historical
default frequency from the CPU identification register's revision
field, with a conservative 100 MHz default. -/
def cpu_clock_fallback (processor_id : Nat) : Nat :=
  let r := processor_id &&& PRID_REV_MASK
  if r = PRID_REV_LOONGSON2E then 533080000
  else if r = PRID_REV_LOONGSON2F then 797000000
  else if r = PRID_REV_LOONGSON3A_R1 ∨ r = PRID_REV_LOONGSON3A_R2_0 ∨
    r = PRID_REV_LOONGSON3A_R2_1 ∨ r = PRID_REV_LOONGSON3A_R3_0 ∨
    r = PRID_REV_LOONGSON3A_R3_1 then 900000000
  else if r = PRID_REV_LOONGSON3B_R1 ∨ r = PRID_REV_LOONGSON3B_R2 then
    1000000000
  else 100000000

/-- The outputs of the legacy (non-LEFI) path of `prom_init_env` that
the claims are about. -/
structure LegacyResult where
  cpu_clock_freq : Nat
  memsize : Nat
  highmemsize : Nat
  pch : PchType
  nr_uarts : Nat
deriving DecidableEq, Repr

/-- The legacy (non-LEFI) path of `prom_init_env`: iterate the
NUL-terminated argument array through `legacy_step` starting from the
zero-initialized globals, default `memsize` to 256 when none was
supplied, select the baseline `dummy` hub with a single UART, and fall
back to a revision-derived clock frequency when none was supplied. -/
def prom_init_env_legacy (envp : List (List Char)) (processor_id : Nat) :
    LegacyResult :=
  let st := envp.foldl legacy_step ⟨0, 0, 0⟩
  let ms := if st.memsize = 0 then 256 else st.memsize
  let freq := if st.cpu_clock_freq = 0 then cpu_clock_fallback processor_id
    else st.cpu_clock_freq
  ⟨freq, ms, st.highmemsize, PchType.dummy, 1⟩

/-- A parse miss leaves the accumulated value unchanged. -/
theorem parse_even_earlier_miss (res : Nat) (key p : List Char)
    (h : listBeginsWith key p = false) :
    parse_even_earlier res key p = res := by
  simp [parse_even_earlier, h]

/-- The legacy loop never changes the frequency over entries that do
not begin with "cpuclock". -/
theorem foldl_freq_const (l : List (List Char)) (st : EarlyEnv)
    (h : ∀ p ∈ l, listBeginsWith cpuclock_key p = false) :
    (l.foldl legacy_step st).cpu_clock_freq = st.cpu_clock_freq := by
  induction l generalizing st with
  | nil => rfl
  | cons p t ih =>
    rw [List.foldl_cons, ih _ (fun q hq => h q (List.mem_cons_of_mem p hq))]
    exact parse_even_earlier_miss _ _ _ (h p (List.mem_cons_self p t))

/-- The legacy loop never changes the memory size over entries that do
not begin with "memsize". -/
theorem foldl_memsize_const (l : List (List Char)) (st : EarlyEnv)
    (h : ∀ p ∈ l, listBeginsWith memsize_key p = false) :
    (l.foldl legacy_step st).memsize = st.memsize := by
  induction l generalizing st with
  | nil => rfl
  | cons p t ih =>
    rw [List.foldl_cons, ih _ (fun q hq => h q (List.mem_cons_of_mem p hq))]
    exact parse_even_earlier_miss _ _ _ (h p (List.mem_cons_self p t))

/-- A pattern begins every list that extends it. -/
theorem listBeginsWith_append (pat rest : List Char) :
    listBeginsWith pat (pat ++ rest) = true := by
  induction pat with
  | nil => rfl
  | cons a t ih => simp [listBeginsWith, ih]

/-- Dropping the key and the '=' from a "key=value" entry leaves the
value. -/
theorem drop_after_key (l r : List Char) (x : Char) :
    (l ++ x :: r).drop (l.length + 1) = r := by
  induction l with
  | nil => rfl
  | cons a t ih =>
    simp only [List.cons_append, List.length_cons, List.drop_succ_cons]
    exact ih

/-- Claim C8: for every valid legacy argument list containing an entry
"cpuclock=N" (with well-formed nonzero decimal N, and no later entry
re-binding the key), the derived clock frequency is exactly N; when no
entry carries the "memsize" key the memory size defaults to 256; and on
this path the baseline (dummy) hub variant is always selected with
exactly one UART assumed. -/
theorem prom_init_env_legacy_ok (l1 l2 : List (List Char))
    (ds : List Char) (N pid : Nat)
    (hparse : kstrtou32 ds = some N) (hN : N ≠ 0)
    (hl2 : ∀ p ∈ l2, listBeginsWith cpuclock_key p = false) :
    ((prom_init_env_legacy (l1 ++ (cpuclock_key ++ '=' :: ds) :: l2)
        pid).cpu_clock_freq = N)
    ∧ ((∀ p ∈ l1 ++ (cpuclock_key ++ '=' :: ds) :: l2,
          listBeginsWith memsize_key p = false) →
        (prom_init_env_legacy (l1 ++ (cpuclock_key ++ '=' :: ds) :: l2)
          pid).memsize = 256)
    ∧ ((prom_init_env_legacy (l1 ++ (cpuclock_key ++ '=' :: ds) :: l2)
        pid).pch = PchType.dummy)
    ∧ ((prom_init_env_legacy (l1 ++ (cpuclock_key ++ '=' :: ds) :: l2)
        pid).nr_uarts = 1) := by
  have hkey : listBeginsWith cpuclock_key (cpuclock_key ++ '=' :: ds)
      = true := listBeginsWith_append _ _
  have hdrop : (cpuclock_key ++ '=' :: ds).drop (cpuclock_key.length + 1)
      = ds := drop_after_key _ _ _
  have hstep : ∀ st : EarlyEnv,
      (legacy_step st (cpuclock_key ++ '=' :: ds)).cpu_clock_freq = N := by
    intro st
    simp only [legacy_step, parse_even_earlier, hkey, if_true, hdrop,
      hparse]
  have hfold : ((l1 ++ (cpuclock_key ++ '=' :: ds) :: l2).foldl
      legacy_step ⟨0, 0, 0⟩).cpu_clock_freq = N := by
    rw [List.foldl_append, List.foldl_cons, foldl_freq_const l2 _ hl2]
    exact hstep _
  refine ⟨?_, ?_, rfl, rfl⟩
  · simp only [prom_init_env_legacy, hfold]
    rw [if_neg hN]
  · intro hm
    have h0 : ((l1 ++ (cpuclock_key ++ '=' :: ds) :: l2).foldl
        legacy_step ⟨0, 0, 0⟩).memsize = 0 :=
      foldl_memsize_const _ _ hm
    simp only [prom_init_env_legacy, h0]
    simp

/-- Witness for claim C8 on the spec's scenario: the single-entry legacy
list "cpuclock=800000000" yields frequency 800000000, the defaulted
memory size 256, the baseline hub and one UART. -/
theorem prom_init_env_legacy_ok_witness :
    kstrtou32 ['8', '0', '0', '0', '0', '0', '0', '0', '0']
        = some 800000000
    ∧ ((prom_init_env_legacy
        [cpuclock_key ++ '=' ::
          ['8', '0', '0', '0', '0', '0', '0', '0', '0']]
        0).cpu_clock_freq = 800000000)
    ∧ ((prom_init_env_legacy
        [cpuclock_key ++ '=' ::
          ['8', '0', '0', '0', '0', '0', '0', '0', '0']]
        0).memsize = 256) :=
  ⟨by decide,
   (prom_init_env_legacy_ok [] []
      ['8', '0', '0', '0', '0', '0', '0', '0', '0'] 800000000 0
      (by decide) (by decide) (by simp)).1,
   (prom_init_env_legacy_ok [] []
      ['8', '0', '0', '0', '0', '0', '0', '0', '0'] 800000000 0
      (by decide) (by decide) (by simp)).2.1 (by decide)⟩
